import Mathlib

/-!
Verification of the odbms persistence layer against its specification.

The development shallowly embeds the Python source of the repository:

* `Model.normalise` (src/odbms/model.py, `Model.normalise`): the bidirectional
  record/filter normaliser, split into its four branches
  (`mongoDbresult`, `mongoParams`, `sqlParams`, `sqlDbresult`).
* The SQL adapters (src/odbms/orms/base.py `ORM`, src/odbms/orms/sqlitedb.py
  `SQLiteDB`, src/odbms/orms/postgresqldb.py `PostgresqlDB`) together with a
  small relational engine model (rows as ordered association lists; a SELECT
  filters rows by equality on the bound parameters; COUNT/SUM aggregate rows;
  INSERT without an `id` column assigns the auto-increment rowid).
* The document-store adapters (src/odbms/mongodb.py `MongoDB` with
  `upsert=True`, src/odbms/orms/mongodb.py motor-based `MongoDB` without
  upsert) over a collection model.
* The connection pool (src/odbms/connection_pool.py) as a counting state
  machine over acquire/release steps.
* The Model-layer operations (src/odbms/model.py `get`, `find`, `find_one`,
  `update`, `remove`, `delete`, `save`), including the `save` step order as an
  event trace.

Python values are embedded as a flat value grammar: scalars (`Prim`), lists
and tuples of scalars, and one-level mappings (`SubVal`), which is the value
domain the repository's filters and records actually use (the specification
states that operator sub-mappings are only ever one level deep).  Python
dictionaries are embedded as insertion-ordered association lists whose keys
are distinct.
-/

/-- Scalar Python values used by the repository: `None`, `int`, `bool`,
`str`, `bson.ObjectId` (carrying its 24-hex text), and `datetime`
(carrying its ISO-format text). -/
inductive Prim where
  | pnone : Prim
  | pint (n : Int) : Prim
  | pbool (b : Bool) : Prim
  | pstr (s : String) : Prim
  | objid (s : String) : Prim
  | pdt (s : String) : Prim
  deriving Repr, DecidableEq

/-- A value one level inside a mapping: a scalar or a list of scalars
(e.g. the set of an `$in` operator). -/
inductive SubVal where
  | p (v : Prim) : SubVal
  | lst (xs : List Prim) : SubVal
  deriving Repr, DecidableEq

/-- A record/filter value: a scalar, a list or tuple of scalars, or a
one-level mapping. -/
inductive Value where
  | p (v : Prim) : Value
  | lst (xs : List Prim) : Value
  | tup (xs : List Prim) : Value
  | dct (kvs : List (String × SubVal)) : Value
  deriving Repr, DecidableEq

/-- A Python dict embedded as an insertion-ordered association list. -/
abbrev Record := List (String × Value)

/-- Python `sep.join(strings)`. -/
def pyJoin (sep : String) : List String → String
  | [] => ""
  | [x] => x
  | x :: xs => x ++ sep ++ pyJoin sep xs

/-- Substring scan over character lists (kernel-reducible, unlike the
byte-position loops of the builtin `String` functions). -/
def listInfix (needle : List Char) : List Char → Bool
  | [] => needle.isEmpty
  | c :: t => needle.isPrefixOf (c :: t) || listInfix needle t

/-- Python `needle in hay` for strings (substring test). -/
def pyInStr (needle hay : String) : Bool := listInfix needle.data hay.data

/-- Python `s.startswith(pre)`. -/
def pyStartsWith (s pre : String) : Bool := pre.data.isPrefixOf s.data

/-- Python `s.endswith(suf)`. -/
def pyEndsWith (s suf : String) : Bool := suf.data.isSuffixOf s.data

/-- The scanning loop of Python `s.split(needle)`, fuelled by the input
length (each step consumes at least one character, so the fuel suffices). -/
def splitGo (needle : List Char) : Nat → List Char → List Char → List (List Char)
  | _, acc, [] => [acc.reverse]
  | 0, acc, rest => [acc.reverse ++ rest]
  | fuel + 1, acc, c :: rest =>
      if needle.isPrefixOf (c :: rest) then
        acc.reverse :: splitGo needle fuel [] (rest.drop (needle.length - 1))
      else splitGo needle fuel (c :: acc) rest

/-- Python `s.split(needle)` for a nonempty needle. -/
def pySplit (needle s : String) : List String :=
  (splitGo needle.data s.data.length [] s.data).map String.mk

/-- Python `s.replace(needle, repl)` for a nonempty needle. -/
def pyReplace (s needle repl : String) : String :=
  pyJoin repl (pySplit needle s)

/-- Python `str(v)` on the scalars the repository joins into `'::'` lists.
`str` of a `datetime` replaces the ISO `'T'` separator by a space. -/
def primStr : Prim → String
  | .pnone => "None"
  | .pint n => toString n
  | .pbool b => if b then "True" else "False"
  | .pstr s => s
  | .objid s => s
  | .pdt s => pyReplace s "T" " "

/-- Python truthiness of an embedded value (`if value:`). -/
def pyTruthy : Value → Bool
  | .p .pnone => false
  | .p (.pint n) => n != 0
  | .p (.pbool b) => b
  | .p (.pstr s) => s ≠ ""
  | .p (.objid _) => true
  | .p (.pdt _) => true
  | .lst xs => xs ≠ []
  | .tup xs => xs ≠ []
  | .dct kvs => kvs ≠ []

/-- First value bound to key `k` in a dict (`d[k]` / `d.get(k)`); Python dict
keys are unique, so the first binding is the binding. -/
def pyGetOpt (r : Record) (k : String) : Option Value :=
  (r.find? (fun kv => kv.1 == k)).map (·.2)

/-- Python `d[k] = v`: replace the value in place if the key exists,
otherwise append the new binding at the end (insertion order). -/
def dictSet (r : Record) (k : String) (v : Value) : Record :=
  if r.any (fun kv => kv.1 == k) then
    r.map (fun kv => if kv.1 == k then (k, v) else kv)
  else r ++ [(k, v)]

/-- `json.dumps` on a scalar.  String escaping of special characters is not
modelled (no claim depends on it); `json.dumps` raises on `ObjectId` and
`datetime`, which the repository never places inside mapping values. -/
def jsonPrim : Prim → String
  | .pnone => "null"
  | .pint n => toString n
  | .pbool b => if b then "true" else "false"
  | .pstr s => "\"" ++ s ++ "\""
  | .objid s => "\"" ++ s ++ "\""
  | .pdt s => "\"" ++ s ++ "\""

/-- `json.dumps` on a one-level-deep value. -/
def jsonSub : SubVal → String
  | .p v => jsonPrim v
  | .lst xs => "[" ++ pyJoin ", " (xs.map jsonPrim) ++ "]"

/-- `json.dumps` on a one-level mapping, with Python's default separators. -/
def jsonDumps (kvs : List (String × SubVal)) : String :=
  "\x7b" ++ pyJoin ", " (kvs.map (fun kv => "\"" ++ kv.1 ++ "\": " ++ jsonSub kv.2)) ++ "\x7d"

/-- Consume exactly `n` decimal digits from the front of the list. -/
def takeDigits : Nat → List Char → Option (List Char)
  | 0, l => some l
  | _ + 1, [] => none
  | n + 1, c :: rest => if c.isDigit then takeDigits n rest else none

/-- Consume an ISO date: extended `YYYY-MM-DD` or basic `YYYYMMDD`. -/
def parseIsoDate (l : List Char) : Option (List Char) :=
  match takeDigits 4 l with
  | none => none
  | some rest =>
      match rest with
      | '-' :: r2 =>
          match takeDigits 2 r2 with
          | none => none
          | some r3 =>
              match r3 with
              | '-' :: r4 => takeDigits 2 r4
              | _ => none
      | _ => takeDigits 4 rest

/-- A UTC-offset tail after the sign: `HH`, `HHMM`, `HH:MM` or `HH:MM:SS`. -/
def isoOffsetDigits : List Char → Bool
  | [h1, h2] => h1.isDigit && h2.isDigit
  | [h1, h2, m1, m2] => h1.isDigit && h2.isDigit && m1.isDigit && m2.isDigit
  | [h1, h2, ':', m1, m2] => h1.isDigit && h2.isDigit && m1.isDigit && m2.isDigit
  | [h1, h2, ':', m1, m2, ':', s1, s2] =>
      h1.isDigit && h2.isDigit && m1.isDigit && m2.isDigit && s1.isDigit && s2.isDigit
  | _ => false

/-- An optional timezone suffix: nothing, `Z`/`z`, or a signed offset. -/
def isoOffset : List Char → Bool
  | [] => true
  | ['Z'] => true
  | ['z'] => true
  | c :: rest => (c == '+' || c == '-') && isoOffsetDigits rest

/-- An optional fractional part (`.`/`,` plus digits), then the optional
timezone suffix. -/
def isoFracThenOffset : List Char → Bool
  | [] => true
  | c :: rest =>
      if c == '.' || c == ',' then
        !(rest.takeWhile (fun d => d.isDigit)).isEmpty &&
          isoOffset (rest.dropWhile (fun d => d.isDigit))
      else isoOffset (c :: rest)

/-- A time part `HH[:MM[:SS]]` or basic `HHMM[SS]`, with an optional fraction
after the seconds and an optional timezone suffix. -/
def isoTime : List Char → Bool
  | h1 :: h2 :: rest =>
      h1.isDigit && h2.isDigit &&
      (match rest with
       | ':' :: m1 :: m2 :: rest2 =>
           m1.isDigit && m2.isDigit &&
           (match rest2 with
            | ':' :: s1 :: s2 :: rest3 => s1.isDigit && s2.isDigit && isoFracThenOffset rest3
            | _ => isoOffset rest2)
       | m1 :: m2 :: rest2 =>
           if m1.isDigit && m2.isDigit then
             match rest2 with
             | s1 :: s2 :: rest3 =>
                 if s1.isDigit && s2.isDigit then isoFracThenOffset rest3
                 else isoOffset rest2
             | _ => isoOffset rest2
           else isoOffset (m1 :: m2 :: rest2)
       | _ => isoOffset rest)
  | _ => false

/-- Model of the strings `datetime.fromisoformat` accepts: an extended or
basic ISO date, optionally followed by any single separator character and a
time (`HH`, `HH:MM`, `HH:MM:SS`, basic variants, optional fraction and
timezone suffix).  Close, not exact: calendar ranges, ISO week dates and the
digit-count limits on fractions are not checked.  No theorem's validity
depends on this function's exact acceptance boundary — the round-trip
theorem's timestamp condition conservatively excludes every digit-initial
string instead (see `digitInitial`). -/
def isIsoDatetime (s : String) : Bool :=
  match parseIsoDate s.data with
  | none => false
  | some [] => true
  | some (_ :: rest) => isoTime rest

/-- The string starts with a decimal digit.  Every string that any Python
version's `datetime.fromisoformat` accepts starts with one (a four-digit
year), so a string failing this test is guaranteed to raise `ValueError` and
be kept verbatim by the dbresult branch. -/
def digitInitial (s : String) : Bool :=
  match s.data with
  | c :: _ => c.isDigit
  | [] => false

/-- The backend family the dispatcher selected (`DBMS.Database`):
the document store, or one of the relational engines. -/
inductive Dbms where
  | mongodb : Dbms
  | sql : Dbms
  deriving Repr, DecidableEq

/-! ## The record/filter normaliser (`Model.normalise`, src/odbms/model.py) -/

/-- The test `isinstance(value, dict) and all(k.startswith('$') for k in
value.keys())` that selects the operator-translation branch.  Note that an
empty mapping passes the `all` vacuously, exactly as in Python. -/
def isOpDict : Value → Bool
  | .dct kvs => kvs.all (fun kv => pyStartsWith kv.1 "$")
  | _ => false

/-- A one-level value re-embedded as a record value. -/
def subToValue : SubVal → Value
  | .p v => .p v
  | .lst xs => .lst xs

/-- Python `tuple(val)` as applied to an operator's set: a list becomes a
tuple of its elements; a string becomes a tuple of its characters.
`tuple()` of a non-iterable scalar raises `TypeError` in Python; that case is
never reached by the repository's filters and is mapped to the empty tuple. -/
def pyTupleSub : SubVal → Value
  | .lst xs => .tup xs
  | .p (.pstr s) => .tup (s.data.map (fun c => .pstr (String.singleton c)))
  | .p _ => .tup []

/-- The inner loop `for op, val in value.items()` of the params-direction
normaliser for the relational family: each recognised MongoDB operator adds
one `"<key> <token> ?"` binding; `$in`/`$nin` bind `tuple(val)` — the whole
set — as that single binding's value.  Unrecognised operators add nothing. -/
def opEntries (key : String) (acc : Record) : List (String × SubVal) → Record
  | [] => acc
  | (op, val) :: rest =>
      let acc' :=
        if op == "$lt" then dictSet acc (key ++ " < ?") (subToValue val)
        else if op == "$lte" then dictSet acc (key ++ " <= ?") (subToValue val)
        else if op == "$gt" then dictSet acc (key ++ " > ?") (subToValue val)
        else if op == "$gte" then dictSet acc (key ++ " >= ?") (subToValue val)
        else if op == "$ne" then dictSet acc (key ++ " != ?") (subToValue val)
        else if op == "$in" then dictSet acc (key ++ " IN ?") (pyTupleSub val)
        else if op == "$nin" then dictSet acc (key ++ " NOT IN ?") (pyTupleSub val)
        else acc
      opEntries key acc' rest

/-- The scalar conversions of the params direction for the relational family:
an `ObjectId` is stringified, a list is joined with the reserved `'::'`
separator, a `datetime` becomes its ISO text, a (non-operator) mapping becomes
its JSON text, and anything else is passed through unchanged. -/
def scalarConv : Value → Value
  | .p (.objid s) => .p (.pstr s)
  | .lst xs => .p (.pstr (pyJoin "::" (xs.map primStr)))
  | .p (.pdt s) => .p (.pstr s)
  | .dct kvs => .p (.pstr (jsonDumps kvs))
  | v => v

/-- One iteration of the params-direction loop of `Model.normalise` for the
relational family. -/
def sqlParamsStep (acc : Record) (kv : String × Value) : Record :=
  if isOpDict kv.2 then
    match kv.2 with
    | .dct kvs => opEntries kv.1 acc kvs
    | _ => acc
  else dictSet acc kv.1 (scalarConv kv.2)

/-- `Model.normalise(content, 'params')` for the relational family: the
fresh `normalized` dict built by iterating over `content.items()`. -/
def sqlParams (content : Record) : Record :=
  content.foldl sqlParamsStep []

/-- One value of `Model.normalise(content, 'dbresult')` for the relational
family: a string containing `'::'` is split back into a list; a nonempty
string under the `created_at`/`updated_at` keys is parsed as a timestamp when
it parses (`ValueError` is swallowed); everything else is kept
(`datetime.fromisoformat` on a non-string raises `TypeError`, also
swallowed). -/
def sqlDbresultVal (k : String) (v : Value) : Value :=
  match v with
  | .p (.pstr s) =>
      if pyInStr "::" s then .lst ((pySplit "::" s).map .pstr)
      else if (k == "created_at" || k == "updated_at") && s != "" then
        if isIsoDatetime s then .p (.pdt s) else .p (.pstr s)
      else .p (.pstr s)
  | v => v

/-- `Model.normalise(content, 'dbresult')` for the relational family. -/
def sqlDbresult (content : Record) : Record :=
  content.map (fun kv => (kv.1, sqlDbresultVal kv.1 kv.2))

/-- Python `str(value)` on an arbitrary embedded value; only the scalar cases
are exercised by the repository (list/tuple/dict reprs are approximated). -/
def pyStrVal : Value → String
  | .p v => primStr v
  | .lst xs => "[" ++ pyJoin ", " (xs.map primStr) ++ "]"
  | .tup xs => "(" ++ pyJoin ", " (xs.map primStr) ++ ")"
  | .dct kvs => jsonDumps kvs

/-- `Model.normalise(content, 'dbresult')` for the document store:
`content['id'] = str(content.pop('_id'))` — the opaque key is removed and its
text re-added under `id` (a missing `_id` raises `KeyError`). -/
def mongoDbresult (content : Record) : Except String Record :=
  match pyGetOpt content "_id" with
  | none => .error "KeyError: _id"
  | some v => .ok (dictSet (content.filter (fun kv => kv.1 != "_id")) "id" (.p (.pstr (pyStrVal v))))

/-- 24-hex-character ObjectId text. -/
def isHex24 (s : String) : Bool :=
  s.length == 24 && s.data.all (fun c => c.isDigit || ('a' ≤ c && c ≤ 'f'))

/-- `bson.ObjectId(v)`: accepts an ObjectId or a valid 24-hex string and
raises `InvalidId` otherwise. -/
def objectIdOf : Value → Except String Value
  | .p (.objid s) => .ok (.p (.objid s))
  | .p (.pstr s) => if isHex24 s then .ok (.p (.objid s)) else .error "InvalidId"
  | _ => .error "InvalidId"

/-- `Model.normalise(content, 'params')` for the document store:
`content['_id'] = ObjectId(content.pop('id'))` when an `id` key is present. -/
def mongoParams (content : Record) : Except String Record :=
  match pyGetOpt content "id" with
  | none => .ok content
  | some v => do
      let oid ← objectIdOf v
      .ok (dictSet (content.filter (fun kv => kv.1 != "id")) "_id" oid)

/-- `Model.normalise` (src/odbms/model.py): `None` content returns the empty
dict before anything else; an uninitialised dispatcher raises
`RuntimeError("Database not initialized")`; otherwise the branch for the
active backend family and direction runs. -/
def Model.normalise (db : Option Dbms) (content : Option Record) (optype : String) : Except String Record :=
  match content with
  | none => .ok []
  | some c =>
      match db with
      | none => .error "Database not initialized"
      | some .mongodb => if optype == "dbresult" then mongoDbresult c else mongoParams c
      | some .sql => .ok (if optype == "params" then sqlParams c else sqlDbresult c)

/-! ## Relational engine model and SQL adapters

Rows are embedded records; a parameterised equality `WHERE` clause selects the
rows whose named columns equal the bound values.  SQL `NULL` three-valued
comparison subtleties are not modelled (the repository binds concrete values).
-/

/-- A stored row satisfies an equality filter when every bound parameter
equals the row's value under that column. -/
def rowMatches (params : Record) (row : Record) : Bool :=
  params.all (fun kv => pyGetOpt row kv.1 == some kv.2)

/-- The engine executing `SELECT * FROM t WHERE <equality params>`. -/
def sqlSelect (rows : List Record) (params : Record) : List Record :=
  rows.filter (rowMatches params)

/-- The clause list `[f"{k} = %s" for k in filter.keys()]` that `ORM.find`
and its siblings (src/odbms/orms/base.py) build for an equality filter. -/
def whereClauses (filter : Record) : List String :=
  filter.map (fun kv => kv.1 ++ " = %s")

/-- The `WHERE` text of `ORM.find`: the clauses joined with `' AND '`, or the
constant `'1=1'` for an empty filter. -/
def whereText (filter : Record) : String :=
  if filter.isEmpty then "1=1" else pyJoin " AND " (whereClauses filter)

/-- The full `SELECT` statement `ORM.find` sends (empty projection). -/
def ORM.findQuery (table : String) (filter : Record) : String :=
  "SELECT * FROM " ++ table ++ " WHERE " ++ whereText filter

/-- `ORM.count` (src/odbms/orms/base.py): for the document store,
`count_documents`; for the relational family, `SELECT COUNT(*)` — the engine
always returns exactly one row holding the count, and the adapter returns
`results[0]['count'] if results else 0`. -/
def ORM.count (dbms : Dbms) (rows : List Record) (filter : Record) : Value :=
  match dbms with
  | .mongodb => .p (.pint (sqlSelect rows filter).length)
  | .sql =>
      let results : List Record := [[("count", .p (.pint (sqlSelect rows filter).length))]]
      match results with
      | [] => .p (.pint 0)
      | r :: _ => (pyGetOpt r "count").getD (.p .pnone)

/-- The numeric value of a column entry for aggregation (SQL `SUM` skips
`NULL`s; non-numeric columns are outside every claim). -/
def colInt (row : Record) (column : String) : Int :=
  match pyGetOpt row column with
  | some (.p (.pint n)) => n
  | _ => 0

/-- The engine executing `SELECT SUM(col) FROM t WHERE ...`: one row whose
value is `NULL` when no row matched, else the sum. -/
def sqlSumRow (rows : List Record) (column : String) (filter : Record) : Record :=
  match sqlSelect rows filter with
  | [] => [("total", .p .pnone)]
  | matched => [("total", .p (.pint ((matched.map (fun r => colInt r column)).foldl (· + ·) 0)))]

/-- `ORM.sum` (src/odbms/orms/base.py): the document-store branch aggregates
with `$group`/`$sum` and gets an empty result list for zero matches, so its
`if result else 0` yields `0`; the relational branch always gets one row back
(`SUM` of nothing is `NULL`), so `results[0]['total'] if results else 0`
yields that row's value. -/
def ORM.sum (dbms : Dbms) (rows : List Record) (column : String) (params : Record) : Value :=
  match dbms with
  | .mongodb =>
      match sqlSelect rows params with
      | [] => .p (.pint 0)
      | matched => .p (.pint ((matched.map (fun r => colInt r column)).foldl (· + ·) 0))
  | .sql =>
      let results : List Record := [sqlSumRow rows column params]
      match results with
      | [] => .p (.pint 0)
      | r :: _ => (pyGetOpt r "total").getD (.p .pnone)

/-- `PostgresqlDB.count` (src/odbms/orms/postgresqldb.py): with an empty
filter the generated `WHERE ` clause is empty and the statement is a syntax
error, which the `except` swallows (implicit `None` return after rollback);
otherwise `fetchone()` gives the one-row `(count,)` tuple, which is truthy,
and its first component is returned. -/
def PostgresqlDB.count (rows : List Record) (filter : Record) : Value :=
  if filter.isEmpty then .p .pnone
  else .p (.pint (sqlSelect rows filter).length)

/-- `PostgresqlDB.sum` (src/odbms/orms/postgresqldb.py): same shape as
`count`, but the one-row result of `SUM` holds SQL `NULL` when no row
matches, and `result[0] if result else None` hands that `NULL` back. -/
def PostgresqlDB.sum (rows : List Record) (column : String) (params : Record) : Value :=
  if params.isEmpty then .p .pnone
  else
    match sqlSelect rows params with
    | [] => .p .pnone
    | matched => .p (.pint ((matched.map (fun r => colInt r column)).foldl (· + ·) 0))

/-! ## The SQLite adapter (src/odbms/orms/sqlitedb.py) -/

/-- `SQLiteDB.find` executes `SELECT * FROM t [WHERE k = :k AND ...]`. -/
def SQLiteDB.find (rows : List Record) (params : Record) : List Record :=
  sqlSelect rows params

/-- `SQLiteDB.find_one`: the same query with `LIMIT 1`; `fetchone()` of an
empty result is `None`, returned as an absent result (never an exception). -/
def SQLiteDB.findOne (rows : List Record) (params : Record) : Option Record :=
  (sqlSelect rows params).head?

/-- `key` contains `'_at'` or ends in `'date'` — the keys whose string values
`SQLiteDB.insert` re-formats as SQLite timestamps. -/
def tsLikeKey (k : String) : Bool :=
  pyInStr "_at" k || pyEndsWith k "date"

/-- `datetime.fromisoformat(value).strftime('%Y-%m-%d %H:%M:%S')` on an
accepted ISO string: the date+time prefix with a space separator. -/
def sqliteTimestamp (s : String) : String :=
  if s.length ≥ 19 then pyReplace (String.mk (s.data.take 19)) "T" " "
  else String.mk (s.data.take 10) ++ " 00:00:00"

/-- The per-value conversion loop of `SQLiteDB.insert`: string values under
timestamp-like keys are re-formatted when they parse as ISO timestamps
(`ValueError` keeps the original). -/
def convertInsertValue (k : String) (v : Value) : Value :=
  match v with
  | .p (.pstr s) =>
      if tsLikeKey k && isIsoDatetime s then .p (.pstr (sqliteTimestamp s))
      else .p (.pstr s)
  | v => v

/-- Is the value a Python `str`? (`isinstance(data['id'], str)`). -/
def isStrVal : Value → Bool
  | .p (.pstr _) => true
  | _ => false

/-- The record `SQLiteDB.insert` actually binds: a string-valued `'id'` key is
deleted first (`del data['id']`), then the timestamp-like string values are
re-formatted. -/
def SQLiteDB.insertPrep (data : Record) : Record :=
  let d :=
    if (pyGetOpt data "id").any isStrVal then data.filter (fun kv => kv.1 != "id")
    else data
  d.map (fun kv => (kv.1, convertInsertValue kv.1 kv.2))

/-- A SQLite table: its rows and the next auto-increment rowid. -/
structure SqliteTable where
  rows : List Record
  nextId : Nat
  deriving Repr, DecidableEq

/-- The engine executing `INSERT INTO t (cols) VALUES (:binds)`: when no `id`
column is named, SQLite assigns the auto-increment rowid to the new row and
`cursor.lastrowid` reports it; an explicit integer `id` column stores the
given value and reports it instead. -/
def sqliteExecInsert (t : SqliteTable) (cols : List String) (binds : Record) : SqliteTable × Int :=
  if cols.contains "id" then
    match pyGetOpt binds "id" with
    | some (.p (.pint n)) => (⟨t.rows ++ [binds], max t.nextId (n.toNat + 1)⟩, n)
    | _ => (⟨t.rows ++ [binds], t.nextId⟩, Int.ofNat t.nextId)
  else
    (⟨t.rows ++ [("id", .p (.pint (Int.ofNat t.nextId))) :: binds], t.nextId + 1⟩, Int.ofNat t.nextId)

/-- `SQLiteDB.insert`: prepare the record, build the column/placeholder
lists from its keys, execute, and return `cursor.lastrowid`. -/
def SQLiteDB.insert (t : SqliteTable) (data : Record) : SqliteTable × Int :=
  let d := SQLiteDB.insertPrep data
  sqliteExecInsert t (d.map Prod.fst) d

/-- Python `{**data, **where}`-style `$set`-like overwrite: every binding of
`data` is written into `row` in order. -/
def applySet (data : Record) (row : Record) : Record :=
  data.foldl (fun r kv => dictSet r kv.1 kv.2) row

/-- `SQLiteDB.update`: every matching row receives the new values;
`cursor.rowcount` reports how many rows matched. -/
def SQLiteDB.update (rows : List Record) (params data : Record) : List Record × Nat :=
  (rows.map (fun r => if rowMatches params r then applySet data r else r),
   (rows.filter (rowMatches params)).length)

/-- `SQLiteDB.remove`: matching rows are deleted and counted. -/
def SQLiteDB.remove (rows : List Record) (params : Record) : List Record × Nat :=
  (rows.filter (fun r => !rowMatches params r),
   (rows.filter (rowMatches params)).length)

/-! ## Document-store adapters (src/odbms/mongodb.py and src/odbms/orms/mongodb.py)

A collection is a list of documents.  Equality filters only (the operator
filters of the document store are outside every claim). -/

/-- A document satisfies an equality filter. -/
def mongoMatches (filter : Record) (doc : Record) : Bool :=
  filter.all (fun kv => pyGetOpt doc kv.1 == some kv.2)

/-- The document MongoDB creates on an upserting update with no match: the
equality fields of the filter, overwritten by the `$set` patch, with a fresh
generated `_id` when none is present. -/
def upsertDoc (filter data : Record) (freshId : String) : Record :=
  let base := filter.filter (fun kv => !isOpDict kv.2)
  let d := applySet data base
  if d.any (fun kv => kv.1 == "_id") then d else ("_id", .p (.objid freshId)) :: d

/-- `MongoDB.update` (src/odbms/mongodb.py): `update_one(filter,
{'$set': data}, upsert=True)` — the first matching document is patched, and
when nothing matches a new document is inserted.  Returns the new collection
and the matched count. -/
def MongoDB.update (docs : List Record) (filter data : Record) (freshId : String) :
    List Record × Nat :=
  match docs.findIdx? (mongoMatches filter) with
  | some i => (docs.set i (applySet data (docs.getD i [])), 1)
  | none => (docs ++ [upsertDoc filter data freshId], 0)

/-- `MongoDB.update_many` (src/odbms/mongodb.py): `update_many(filter,
{'$set': data}, upsert=True)` — every matching document is patched; when
nothing matches a new document is inserted. -/
def MongoDB.updateMany (docs : List Record) (filter data : Record) (freshId : String) :
    List Record × Nat :=
  let n := (docs.filter (mongoMatches filter)).length
  if n = 0 then (docs ++ [upsertDoc filter data freshId], 0)
  else (docs.map (fun d => if mongoMatches filter d then applySet data d else d), n)

/-- `_convert_id` of the motor adapter (src/odbms/orms/mongodb.py): a
string-valued `_id` condition is re-encoded as an `ObjectId`. -/
def convertId (conditions : Record) : Record :=
  conditions.map (fun kv =>
    if kv.1 == "_id" then
      match kv.2 with
      | .p (.pstr s) => ("_id", .p (.objid s))
      | v => ("_id", v)
    else kv)

/-- `MongoDB.update_async` of the motor adapter (src/odbms/orms/mongodb.py):
`update_many(conditions, {'$set': data})` with the driver's default
`upsert=False` — matching documents are patched and counted; with no match
the collection is unchanged and `modified_count` is `0`.  The blocking
`update` drives the same coroutine to completion. -/
def MotorMongoDB.update (docs : List Record) (conditions data : Record) :
    List Record × Nat :=
  let conds := convertId conditions
  (docs.map (fun d => if mongoMatches conds d then applySet data d else d),
   (docs.filter (mongoMatches conds)).length)

/-! ## The connection pool (src/odbms/connection_pool.py)

`initialize_pool` eagerly creates `pool_size` connections (connection
creation is assumed to succeed, as the invariant presupposes a fully built
pool).  `get_connection` takes a connection off the queue, and on exit probes
it: a live connection is returned, a dead one is replaced by a freshly
created one before being returned; if even the replacement fails the slot is
silently dropped. -/

/-- Counting state of one keyed pool: queued connections and checked-out
connections, plus the configured size. -/
structure PoolState where
  available : Nat
  inUse : Nat
  size : Nat
  deriving Repr, DecidableEq

/-- One pool interaction: entering `get_connection` (acquire) or leaving it
(release), the latter tagged with the liveness-probe outcome and, for a dead
connection, whether creating the replacement succeeded. -/
inductive PoolOp where
  | acquire : PoolOp
  | release (alive replacementOk : Bool) : PoolOp
  deriving Repr, DecidableEq

/-- The pool after a fresh `initialize_pool(dbms, config, n)`. -/
def initPool (n : Nat) : PoolState := ⟨n, 0, n⟩

/-- One step of the pool: an acquire on an empty queue times out with an
exception and changes nothing; a release returns the (possibly replaced)
connection to the queue unless the connection was dead and its replacement
could not be created, in which case the slot is dropped. -/
def poolStep (s : PoolState) : PoolOp → PoolState
  | .acquire =>
      if s.available = 0 then s
      else ⟨s.available - 1, s.inUse + 1, s.size⟩
  | .release alive replacementOk =>
      if s.inUse = 0 then s
      else if alive || replacementOk then ⟨s.available + 1, s.inUse - 1, s.size⟩
      else ⟨s.available, s.inUse - 1, s.size⟩

/-- A sequence of pool interactions, applied in order. -/
def poolRun (s : PoolState) (ops : List PoolOp) : PoolState :=
  ops.foldl poolStep s

/-- The pool invariant of the specification. -/
def PoolInv (s : PoolState) : Prop :=
  s.available + s.inUse = s.size

/-- A release whose connection was still alive, or whose dead-connection
replacement succeeded. -/
def goodOp : PoolOp → Bool
  | .acquire => true
  | .release alive replacementOk => alive || replacementOk

/-! ## Model-layer operations (src/odbms/model.py)

Each operation first checks `DBMS.Database is None` and raises
`RuntimeError("Database not initialized")` before touching storage; the
initialised path is embedded against the relational family (the engine model
above).  The `_async` variants repeat the same check and call the same
adapter logic on the worker pool, so one embedding covers both forms.  The
table name plays no role in the claims and is omitted; `db` is the content of
the model's table. -/

/-- `Model.get`: normalise the identifier filter, `find_one` it, normalise
the row back (where `normalise(None)` is the empty dict), and return the
reconstructed entity only when the result is truthy. -/
def Model.get (db : Option (List Record)) (idv : Value) : Except String (Option Record) :=
  match db with
  | none => .error "Database not initialized"
  | some rows =>
      let params := sqlParams [("id", idv)]
      let result :=
        match SQLiteDB.findOne rows params with
        | none => ([] : Record)
        | some r => sqlDbresult r
      .ok (if result.isEmpty then none else some result)

/-- `Model.find`: normalise the conditions when nonempty, query, and
reconstruct every row. -/
def Model.find (db : Option (List Record)) (conds : Record) : Except String (List Record) :=
  match db with
  | none => .error "Database not initialized"
  | some rows =>
      let params := if conds.isEmpty then [] else sqlParams conds
      .ok ((sqlSelect rows params).map sqlDbresult)

/-- `Model.find_one`: like `find` with a single-row lookup; an absent or
falsy row is an absent result. -/
def Model.findOne (db : Option (List Record)) (conds : Record) : Except String (Option Record) :=
  match db with
  | none => .error "Database not initialized"
  | some rows =>
      let params := if conds.isEmpty then [] else sqlParams conds
      match SQLiteDB.findOne rows params with
      | none => .ok none
      | some r => .ok (if r.isEmpty then none else some (sqlDbresult r))

/-- `Model.update` (classmethod): normalise conditions and patch, update. -/
def Model.update (db : Option (List Record)) (conds data : Record) :
    Except String (List Record × Nat) :=
  match db with
  | none => .error "Database not initialized"
  | some rows => .ok (SQLiteDB.update rows (sqlParams conds) (sqlParams data))

/-- `Model.remove` (classmethod): normalise conditions, remove. -/
def Model.remove (db : Option (List Record)) (conds : Record) :
    Except String (List Record × Nat) :=
  match db with
  | none => .error "Database not initialized"
  | some rows => .ok (SQLiteDB.remove rows (sqlParams conds))

/-- `Model.delete` (instance method, `cascade=False`): the before-delete
hooks run, then the dispatcher check, then the identifier-filtered remove
(the after-delete hooks follow). -/
def Model.delete (db : Option (List Record)) (idv : Value) :
    Except String (List Record × Nat) :=
  match db with
  | none => .error "Database not initialized"
  | some rows => .ok (SQLiteDB.remove rows (sqlParams [("id", idv)]))

/-- The observable steps of `Model.save`. -/
inductive SaveEvent where
  | beforeHooks : SaveEvent
  | validateFields : SaveEvent
  | computeFields : SaveEvent
  | stampUpdatedAt : SaveEvent
  | dbFindOne : SaveEvent
  | dbInsert : SaveEvent
  | adoptId : SaveEvent
  | dbUpdate : SaveEvent
  | afterHooks : SaveEvent
  deriving Repr, DecidableEq

/-- The event trace of `Model.save` (src/odbms/model.py, `save`).

Inputs describe the instance and environment: whether the dispatcher is
initialised, whether `self.id` is truthy, whether it is a raw `ObjectId`
(`if self.id and not isinstance(self.id, ObjectId)` guards the lookup),
whether the `find_one` lookup finds a record, and whether the adapter's
`insert` returns a truthy result (which `save` adopts as the new id).
The result records the trace and the outcome: hooks, validation, computed
fields and the `updated_at` stamp always run first; the storage steps only
run against an initialised dispatcher, and an uninitialised one raises. -/
def Model.save (dbInit idTruthy idIsObjectId found insertReturns : Bool) :
    List SaveEvent × Except String Unit :=
  let pre := [SaveEvent.beforeHooks, SaveEvent.validateFields,
              SaveEvent.computeFields, SaveEvent.stampUpdatedAt]
  if idTruthy && !idIsObjectId then
    if !dbInit then (pre, .error "Database not initialized")
    else
      let evs := pre ++ [SaveEvent.dbFindOne]
      if found then (evs ++ [SaveEvent.dbUpdate, SaveEvent.afterHooks], .ok ())
      else
        (evs ++ [SaveEvent.dbInsert] ++
          (if insertReturns then [SaveEvent.adoptId] else []) ++
          [SaveEvent.afterHooks], .ok ())
  else
    if !dbInit then (pre, .error "Database not initialized")
    else
      (pre ++ [SaveEvent.dbInsert] ++
        (if insertReturns then [SaveEvent.adoptId] else []) ++
        [SaveEvent.afterHooks], .ok ())

/-! ## Claims -/

/-- C1: the params-direction normalisation of an `$in` filter on the
relational family produces a single binding `"<key> IN ?"` whose value is the
entire set as one tuple — one bound parameter for a three-element set, not
three.  (The claim asserts one parameter per element; this evaluation shows
the code binds the whole set as one combined value.) -/
theorem c1_in_set_binds_whole_set_as_one_parameter :
    Model.normalise (some Dbms.sql)
        (some [("age", Value.dct [("$in", SubVal.lst [Prim.pint 1, Prim.pint 2, Prim.pint 3])])])
        "params"
      = Except.ok [("age IN ?", Value.tup [Prim.pint 1, Prim.pint 2, Prim.pint 3])] ∧
    (sqlParams [("age", Value.dct [("$in", SubVal.lst [Prim.pint 1, Prim.pint 2, Prim.pint 3])])]).length
      = 1 := ⟨rfl, by decide⟩

/-- C4: over a table with zero matching rows, both `ORM.count` branches and
`PostgresqlDB.count` (nonempty filter) return `0`, but the relational `SUM`
row holds SQL `NULL`, so `ORM.sum`'s `results[0]['total']` and
`PostgresqlDB.sum`'s `result[0]` hand back `None`, not `0` — only the
document-store `sum` branch returns `0`.  (`PostgresqlDB.count` with an empty
filter even returns `None`, its `except` path.) -/
theorem c4_count_zero_sum_none_on_zero_rows :
    ORM.count Dbms.sql [] [] = Value.p (Prim.pint 0) ∧
    ORM.count Dbms.mongodb [] [] = Value.p (Prim.pint 0) ∧
    ORM.sum Dbms.mongodb [] "price" [] = Value.p (Prim.pint 0) ∧
    ORM.sum Dbms.sql [] "price" [] = Value.p Prim.pnone ∧
    PostgresqlDB.count [] [("name", Value.p (Prim.pstr "x"))] = Value.p (Prim.pint 0) ∧
    PostgresqlDB.sum [] "price" [("name", Value.p (Prim.pstr "x"))] = Value.p Prim.pnone ∧
    PostgresqlDB.count [] [] = Value.p Prim.pnone :=
  ⟨by decide, by decide, by decide, by decide, by decide, by decide, by decide⟩

/-- C6 counterexample: an instance whose identifier is a raw `ObjectId`
(truthy, `isinstance(self.id, ObjectId)`) is saved without any `find_one`
lookup — `save` goes straight to insert — so the claimed
"always attempts a lookup on the current identifier" step order fails. -/
theorem c6_save_skips_lookup_for_objectid :
    (Model.save true true true false true).1
      = [SaveEvent.beforeHooks, SaveEvent.validateFields, SaveEvent.computeFields,
         SaveEvent.stampUpdatedAt, SaveEvent.dbInsert, SaveEvent.adoptId,
         SaveEvent.afterHooks] ∧
    SaveEvent.dbFindOne ∉ (Model.save true true true false true).1 :=
  ⟨rfl, by decide⟩

/-- C6 (amended): when the identifier is truthy and not a raw `ObjectId`,
`save` runs exactly in order: before-save hooks, field validation, computed
fields, update-timestamp stamp, the `find_one` lookup, then an update (record
found) or an insert followed by identifier adoption when the store returns
one, and finally the after-save hooks. -/
theorem c6_save_step_order (found insertReturns : Bool) :
    Model.save true true false found insertReturns =
      ([SaveEvent.beforeHooks, SaveEvent.validateFields, SaveEvent.computeFields,
        SaveEvent.stampUpdatedAt, SaveEvent.dbFindOne] ++
       (if found then [SaveEvent.dbUpdate]
        else [SaveEvent.dbInsert] ++ (if insertReturns then [SaveEvent.adoptId] else [])) ++
       [SaveEvent.afterHooks], Except.ok ()) := by
  cases found <;> cases insertReturns <;> rfl

/-- C7: with the dispatcher uninitialised (`DBMS.Database is None`), every
Model-layer operation — `get`, `find`, `find_one`, `update`, `remove`,
`delete`, `save` (and the async forms, which repeat the same check) — raises
`RuntimeError("Database not initialized")` and performs no storage access:
`save`'s trace stops before any storage event. -/
theorem c7_uninitialized_raises_everywhere (idv : Value) (conds data : Record)
    (idT idO found insR : Bool) :
    Model.get none idv = Except.error "Database not initialized" ∧
    Model.find none conds = Except.error "Database not initialized" ∧
    Model.findOne none conds = Except.error "Database not initialized" ∧
    Model.update none conds data = Except.error "Database not initialized" ∧
    Model.remove none conds = Except.error "Database not initialized" ∧
    Model.delete none idv = Except.error "Database not initialized" ∧
    (Model.save false idT idO found insR).2 = Except.error "Database not initialized" ∧
    (Model.save false idT idO found insR).1
      = [SaveEvent.beforeHooks, SaveEvent.validateFields, SaveEvent.computeFields,
         SaveEvent.stampUpdatedAt] := by
  refine ⟨rfl, rfl, rfl, rfl, rfl, rfl, ?_, ?_⟩ <;>
    cases idT <;> cases idO <;> rfl

/-- One good pool step preserves the pool counting invariant. -/
theorem poolStep_inv {s : PoolState} (hs : PoolInv s) {op : PoolOp}
    (hop : goodOp op = true) : PoolInv (poolStep s op) := by
  cases op with
  | acquire =>
      unfold poolStep
      by_cases h : s.available = 0
      · simpa [h] using hs
      · simp only [h, if_false]
        unfold PoolInv at hs ⊢
        dsimp only
        omega
  | release alive replacementOk =>
      unfold poolStep
      by_cases h : s.inUse = 0
      · simpa [h] using hs
      · have hgood : alive || replacementOk := by simpa [goodOp] using hop
        simp only [h, if_false, hgood, if_true]
        unfold PoolInv at hs ⊢
        dsimp only
        omega

/-- C3 (amended): starting from a freshly initialised pool of any configured
size, after any sequence of acquires (an acquire against an exhausted pool
times out and changes nothing) and releases in which every released dead
connection's replacement is successfully created, the available plus
checked-out connections always equal the configured size. -/
theorem c3_pool_invariant (n : Nat) (ops : List PoolOp)
    (h : ∀ op ∈ ops, goodOp op = true) :
    PoolInv (poolRun (initPool n) ops) := by
  have key : ∀ (l : List PoolOp) (s : PoolState), PoolInv s →
      (∀ op ∈ l, goodOp op = true) → PoolInv (poolRun s l) := by
    intro l
    induction l with
    | nil => intro s hs _; exact hs
    | cons op rest ih =>
        intro s hs hl
        have h1 : goodOp op = true := hl op (List.mem_cons_self op rest)
        have h2 : ∀ o ∈ rest, goodOp o = true := fun o ho => hl o (List.mem_cons_of_mem op ho)
        exact ih (poolStep s op) (poolStep_inv hs h1) h2
  exact key ops (initPool n) rfl h

/-- C3 witness: a concrete run — acquire both connections of a pool of two,
release one dead connection with a successful replacement, acquire again —
keeps `available + in_use = 2`. -/
theorem c3_pool_invariant_witness :
    PoolInv (poolRun (initPool 2)
      [PoolOp.acquire, PoolOp.acquire, PoolOp.release false true, PoolOp.acquire]) :=
  c3_pool_invariant 2 _ (by decide)

/-! ## Lemmas about dict assignment and the params normalisation -/

/-- Assigning a key absent from the dict appends the binding. -/
theorem dictSet_fresh (r : Record) (k : String) (v : Value)
    (h : ∀ kv ∈ r, ¬ kv.1 = k) : dictSet r k v = r ++ [(k, v)] := by
  unfold dictSet
  have hany : r.any (fun kv => kv.1 == k) = false := by
    rw [List.any_eq_false]
    intro kv hkv
    simpa using h kv hkv
  simp [hany]

/-- The params-direction loop on a filter of bare (non-operator) values with
distinct keys appends one converted binding per input binding. -/
theorem sqlParams_foldl_scalars (f : Record) :
    ∀ acc : Record,
      (∀ kv ∈ f, isOpDict kv.2 = false) →
      (f.map Prod.fst).Nodup →
      (∀ kv ∈ f, ∀ av ∈ acc, ¬ av.1 = kv.1) →
      f.foldl sqlParamsStep acc = acc ++ f.map (fun kv => (kv.1, scalarConv kv.2)) := by
  induction f with
  | nil => intro acc _ _ _; simp
  | cons kv rest ih =>
      intro acc hop hnd hfresh
      have hkv : isOpDict kv.2 = false := hop kv (List.mem_cons_self _ _)
      have hstep : sqlParamsStep acc kv = acc ++ [(kv.1, scalarConv kv.2)] := by
        unfold sqlParamsStep
        rw [hkv]
        simp only [Bool.false_eq_true, if_false]
        exact dictSet_fresh acc kv.1 (scalarConv kv.2)
          (fun av hav => hfresh kv (List.mem_cons_self _ _) av hav)
      have hnd2 : (kv.1 :: rest.map Prod.fst).Nodup := by simpa using hnd
      have hnd' : (rest.map Prod.fst).Nodup := (List.nodup_cons.mp hnd2).2
      have hknotin : kv.1 ∉ rest.map Prod.fst := (List.nodup_cons.mp hnd2).1
      have hfresh' : ∀ kv' ∈ rest, ∀ av ∈ acc ++ [(kv.1, scalarConv kv.2)], ¬ av.1 = kv'.1 := by
        intro kv' hkv' av hav
        rcases List.mem_append.mp hav with hin | hin
        · exact hfresh kv' (List.mem_cons_of_mem _ hkv') av hin
        · have : av = (kv.1, scalarConv kv.2) := by simpa using hin
          subst this
          intro hcontra
          exact hknotin (hcontra ▸ List.mem_map_of_mem Prod.fst hkv')
      have hop' : ∀ kv' ∈ rest, isOpDict kv'.2 = false :=
        fun kv' h' => hop kv' (List.mem_cons_of_mem _ h')
      calc (kv :: rest).foldl sqlParamsStep acc
          = rest.foldl sqlParamsStep (sqlParamsStep acc kv) := by rw [List.foldl_cons]
        _ = (acc ++ [(kv.1, scalarConv kv.2)]) ++ rest.map (fun kv => (kv.1, scalarConv kv.2)) := by
              rw [hstep]; exact ih _ hop' hnd' hfresh'
        _ = acc ++ (kv :: rest).map (fun kv => (kv.1, scalarConv kv.2)) := by
              simp

/-- `sqlParams` on a filter of bare values with distinct keys converts each
value in place. -/
theorem sqlParams_scalars (f : Record)
    (hop : ∀ kv ∈ f, isOpDict kv.2 = false)
    (hnd : (f.map Prod.fst).Nodup) :
    sqlParams f = f.map (fun kv => (kv.1, scalarConv kv.2)) := by
  have := sqlParams_foldl_scalars f [] hop hnd (by intro kv _ av hav; cases hav)
  simpa [sqlParams] using this

/-- A value that survives the relational round trip under its key: plain
`None`/`int`/`bool`, or a string without the reserved separator that, under
the `created_at`/`updated_at` keys, does not begin with a decimal digit — a
conservative condition guaranteeing `datetime.fromisoformat` rejects it, so
the dbresult branch keeps the string verbatim. -/
def safeScalar (k : String) (v : Value) : Bool :=
  match v with
  | .p .pnone => true
  | .p (.pint _) => true
  | .p (.pbool _) => true
  | .p (.pstr s) =>
      !pyInStr "::" s &&
      !((k == "created_at" || k == "updated_at") && s != "" && digitInitial s)
  | _ => false

/-- Safe values are not operator sub-mappings. -/
theorem safe_isOpDict {k : String} {v : Value} (h : safeScalar k v = true) :
    isOpDict v = false := by
  cases v with
  | p pv => cases pv <;> rfl
  | lst xs => cases h
  | tup xs => cases h
  | dct kvs => cases h

/-- The params direction leaves safe values unchanged. -/
theorem safe_scalarConv {k : String} {v : Value} (h : safeScalar k v = true) :
    scalarConv v = v := by
  cases v with
  | p pv => cases pv <;> first | rfl | cases h
  | lst xs => cases h
  | tup xs => cases h
  | dct kvs => cases h

/-- A negated boolean that tests true is false. -/
theorem bool_not_true {b : Bool} (h : (!b) = true) : b = false := by
  cases b
  · rfl
  · cases h

/-- A string that does not start with a decimal digit is never accepted as an
ISO timestamp (the date parse fails on its first character). -/
theorem isIso_false_of_not_digitInitial (s : String) (h : digitInitial s = false) :
    isIsoDatetime s = false := by
  have h4 : parseIsoDate s.data = none := by
    unfold parseIsoDate
    cases hd : s.data with
    | nil => rfl
    | cons c rest =>
        have hc : c.isDigit = false := by
          unfold digitInitial at h
          rw [hd] at h
          exact h
        have ht : takeDigits 4 (c :: rest) = none := by
          show (if c.isDigit then takeDigits 3 rest else none) = none
          rw [hc]
          simp
        rw [ht]
  unfold isIsoDatetime
  rw [h4]

/-- The dbresult direction leaves safe values unchanged. -/
theorem safe_dbresultVal {k : String} {v : Value} (h : safeScalar k v = true) :
    sqlDbresultVal k v = v := by
  cases v with
  | p pv =>
      cases pv with
      | pstr s =>
          have h' : (!pyInStr "::" s &&
              !((k == "created_at" || k == "updated_at") && s != "" && digitInitial s)) = true := h
          rcases (Bool.and_eq_true _ _).mp h' with ⟨h1, h2⟩
          have hsep : pyInStr "::" s = false := bool_not_true h1
          have hts : ((k == "created_at" || k == "updated_at") && s != "" && digitInitial s) = false :=
            bool_not_true h2
          simp only [sqlDbresultVal, hsep, Bool.false_eq_true, if_false]
          by_cases hk : ((k == "created_at" || k == "updated_at") && s != "") = true
          · have hdig : digitInitial s = false := by
              rw [hk, Bool.true_and] at hts
              exact hts
            have hiso : isIsoDatetime s = false := isIso_false_of_not_digitInitial s hdig
            simp [hk, hiso]
          · simp [hk]
      | pnone => rfl
      | pint n => rfl
      | pbool b => rfl
      | objid s => rfl
      | pdt s => rfl
  | lst xs => rfl
  | tup xs => rfl
  | dct kvs => rfl

/-- C2 counterexample: an identifier-typed value does not survive the
relational round trip — the params direction stringifies the `ObjectId`, and
the dbresult direction leaves it a plain string, so the recovered record is
not value-equal to the original. -/
theorem c2_identifier_fails_roundtrip :
    Model.normalise (some Dbms.sql)
        (some [("ref", Value.p (Prim.objid "65aa00112233445566778899"))]) "params"
      = Except.ok [("ref", Value.p (Prim.pstr "65aa00112233445566778899"))] ∧
    Model.normalise (some Dbms.sql)
        (some [("ref", Value.p (Prim.pstr "65aa00112233445566778899"))]) "dbresult"
      = Except.ok [("ref", Value.p (Prim.pstr "65aa00112233445566778899"))] ∧
    [("ref", Value.p (Prim.pstr "65aa00112233445566778899"))]
      ≠ [("ref", Value.p (Prim.objid "65aa00112233445566778899"))] :=
  ⟨rfl, rfl, by decide⟩

/-- C2 (amended): the relational round trip (dbresult direction after params
direction) recovers the record whenever every value is a plain scalar —
`None`, integer, boolean, or a string without the reserved `'::'` separator
that, under the `created_at`/`updated_at` keys, does not begin with a decimal
digit (so `datetime.fromisoformat` is guaranteed to reject it); list,
mapping, timestamp and identifier values are serialized by the params
direction but not decoded back. -/
theorem c2_roundtrip_for_safe_scalars (r : Record)
    (hnd : (r.map Prod.fst).Nodup)
    (hsafe : ∀ kv ∈ r, safeScalar kv.1 kv.2 = true) :
    Model.normalise (some Dbms.sql) (some (sqlParams r)) "dbresult" = Except.ok r := by
  have hop : ∀ kv ∈ r, isOpDict kv.2 = false := fun kv hkv => safe_isOpDict (hsafe kv hkv)
  have hparams : sqlParams r = r := by
    rw [sqlParams_scalars r hop hnd]
    have : ∀ kv ∈ r, (fun kv : String × Value => (kv.1, scalarConv kv.2)) kv = kv := by
      intro kv hkv
      have := safe_scalarConv (hsafe kv hkv)
      simp [this]
    calc r.map (fun kv => (kv.1, scalarConv kv.2)) = r.map id := List.map_congr_left this
      _ = r := List.map_id r
  have hdb : sqlDbresult r = r := by
    unfold sqlDbresult
    have : ∀ kv ∈ r, (fun kv : String × Value => (kv.1, sqlDbresultVal kv.1 kv.2)) kv = kv := by
      intro kv hkv
      have := safe_dbresultVal (hsafe kv hkv)
      simp [this]
    calc r.map (fun kv => (kv.1, sqlDbresultVal kv.1 kv.2)) = r.map id := List.map_congr_left this
      _ = r := List.map_id r
  show Except.ok (if ("dbresult" == "params") = true then sqlParams (sqlParams r) else sqlDbresult (sqlParams r)) = Except.ok r
  rw [hparams]
  simp [hdb]

/-- C2 witness: a concrete scalar record survives the round trip. -/
theorem c2_roundtrip_witness :
    Model.normalise (some Dbms.sql)
        (some (sqlParams [("name", Value.p (Prim.pstr "bob")), ("age", Value.p (Prim.pint 30))]))
        "dbresult"
      = Except.ok [("name", Value.p (Prim.pstr "bob")), ("age", Value.p (Prim.pint 30))] :=
  c2_roundtrip_for_safe_scalars _ (by decide) (by decide)

/-- C8: when no stored row carries the requested identifier, the adapter's
`find_one` returns an absent result and `Model.get` returns `Except.ok none`
— not-found is signalled as absence, never as an exception. -/
theorem c8_not_found_is_absent (rows : List Record) (idv : Value)
    (hscalar : safeScalar "id" idv = true)
    (hnone : ∀ r ∈ rows, ¬ pyGetOpt r "id" = some idv) :
    SQLiteDB.findOne rows [("id", idv)] = none ∧
    Model.get (some rows) idv = Except.ok none := by
  have hparams : sqlParams [("id", idv)] = [("id", idv)] := by
    rw [sqlParams_scalars]
    · simp [safe_scalarConv hscalar]
    · intro kv hkv
      have hkv' : kv = ("id", idv) := by simpa using hkv
      subst hkv'
      exact safe_isOpDict hscalar
    · simp
  have hsel : sqlSelect rows [("id", idv)] = [] := by
    unfold sqlSelect
    apply List.filter_eq_nil_iff.mpr
    intro r hr
    simp [rowMatches, hnone r hr]
  constructor
  · simp [SQLiteDB.findOne, hsel]
  · simp [Model.get, SQLiteDB.findOne, hparams, hsel]

/-- C8 witness: a concrete store with one row whose id is `1` contains no
row with id `"zzz"`; both lookups come back absent. -/
theorem c8_not_found_witness :
    SQLiteDB.findOne [[("id", Value.p (Prim.pint 1)), ("name", Value.p (Prim.pstr "a"))]]
        [("id", Value.p (Prim.pstr "zzz"))] = none ∧
    Model.get (some [[("id", Value.p (Prim.pint 1)), ("name", Value.p (Prim.pstr "a"))]])
        (Value.p (Prim.pstr "zzz")) = Except.ok none :=
  c8_not_found_is_absent _ _ (by decide) (by decide)

/-- C9: normalising an equality-only filter (bare values, no operator
sub-mappings, distinct operator-free keys) and translating it relationally
produces exactly one `"<key> = %s"` comparison clause per filter key, in key
order, joined with `' AND '`, and no clause carries a residual `$` operator
token. -/
theorem c9_equality_filter_translation (f : Record)
    (hnd : (f.map Prod.fst).Nodup)
    (hop : ∀ kv ∈ f, isOpDict kv.2 = false)
    (hkeys : ∀ kv ∈ f, '$' ∉ kv.1.data) :
    (sqlParams f).map Prod.fst = f.map Prod.fst ∧
    whereClauses (sqlParams f) = (f.map Prod.fst).map (fun k => k ++ " = %s") ∧
    (whereClauses (sqlParams f)).length = f.length ∧
    (f ≠ [] → whereText (sqlParams f) = pyJoin " AND " (whereClauses (sqlParams f))) ∧
    (∀ c ∈ whereClauses (sqlParams f), '$' ∉ c.data) := by
  have hsp := sqlParams_scalars f hop hnd
  have hfst : (sqlParams f).map Prod.fst = f.map Prod.fst := by
    rw [hsp, List.map_map]
    rfl
  have hcl : whereClauses (sqlParams f) = (f.map Prod.fst).map (fun k => k ++ " = %s") := by
    unfold whereClauses
    rw [hsp, List.map_map, List.map_map]
    rfl
  refine ⟨hfst, hcl, ?_, ?_, ?_⟩
  · rw [hcl]
    simp
  · intro hne
    unfold whereText
    have : (sqlParams f).isEmpty = false := by
      rw [hsp]
      cases f with
      | nil => exact absurd rfl hne
      | cons kv rest => rfl
    simp [this]
  · intro c hc
    rw [hcl] at hc
    rcases List.mem_map.mp hc with ⟨k, hk, hck⟩
    rcases List.mem_map.mp hk with ⟨kv, hkv, hkk⟩
    subst hck
    have hka : (k ++ " = %s").data = k.data ++ " = %s".data := rfl
    rw [hka]
    intro hmem
    rcases List.mem_append.mp hmem with hin | hin
    · exact hkeys kv hkv (by rw [hkk]; exact hin)
    · exact absurd hin (by decide)

/-- C9 witness: a concrete two-key equality filter translates to the two
expected clauses and the `' AND '`-joined predicate. -/
theorem c9_equality_filter_witness :
    whereClauses (sqlParams [("name", Value.p (Prim.pstr "a")), ("age", Value.p (Prim.pint 3))])
      = ["name = %s", "age = %s"] ∧
    whereText (sqlParams [("name", Value.p (Prim.pstr "a")), ("age", Value.p (Prim.pint 3))])
      = "name = %s AND age = %s" ∧
    (whereClauses (sqlParams [("name", Value.p (Prim.pstr "a")), ("age", Value.p (Prim.pint 3))])).length = 2 := by
  have h := c9_equality_filter_translation
    [("name", Value.p (Prim.pstr "a")), ("age", Value.p (Prim.pint 3))]
    (by decide) (by decide) (by decide)
  exact ⟨by decide, by decide, h.2.2.1⟩

/-- C10: when the record handed to `SQLiteDB.insert` carries a string-valued
`'id'` key, that key is deleted before the statement is built — no `id`
column is named — so the engine assigns the auto-increment rowid to the
stored row and `insert` returns it; every other key of the record is bound
(with its converted value) into the inserted row. -/
theorem c10_sqlite_insert_drops_string_id (t : SqliteTable) (data : Record) (s : String)
    (hid : pyGetOpt data "id" = some (Value.p (Prim.pstr s))) :
    "id" ∉ (SQLiteDB.insertPrep data).map Prod.fst ∧
    SQLiteDB.insert t data
      = (⟨t.rows ++ [("id", Value.p (Prim.pint (Int.ofNat t.nextId))) :: SQLiteDB.insertPrep data],
          t.nextId + 1⟩, Int.ofNat t.nextId) ∧
    (∀ kv ∈ data, kv.1 ≠ "id" → (kv.1, convertInsertValue kv.1 kv.2) ∈ SQLiteDB.insertPrep data) := by
  have hprep : SQLiteDB.insertPrep data
      = (data.filter (fun kv => kv.1 != "id")).map (fun kv => (kv.1, convertInsertValue kv.1 kv.2)) := by
    unfold SQLiteDB.insertPrep
    rw [hid]
    rfl
  have hnoid : "id" ∉ (SQLiteDB.insertPrep data).map Prod.fst := by
    rw [hprep]
    intro hmem
    rcases List.mem_map.mp hmem with ⟨kv', hkv', hfst⟩
    rcases List.mem_map.mp hkv' with ⟨kv, hkv, hconv⟩
    have hne : (kv.1 != "id") = true := (List.mem_filter.mp hkv).2
    have : kv.1 = "id" := by
      rw [← hconv] at hfst
      exact hfst
    simp [this] at hne
  have hcont : ((SQLiteDB.insertPrep data).map Prod.fst).contains "id" = false := by
    simpa using hnoid
  refine ⟨hnoid, ?_, ?_⟩
  · unfold SQLiteDB.insert sqliteExecInsert
    simp only [hcont, Bool.false_eq_true, if_false]
  · intro kv hkv hne
    rw [hprep]
    apply List.mem_map.mpr
    refine ⟨kv, ?_, rfl⟩
    apply List.mem_filter.mpr
    exact ⟨hkv, by simpa using hne⟩

/-- C10 witness: inserting `{id: "abc", name: "bob"}` into an empty table
whose next rowid is `7` stores `{id: 7, name: "bob"}` and returns `7`. -/
theorem c10_sqlite_insert_witness :
    SQLiteDB.insert ⟨[], 7⟩ [("id", Value.p (Prim.pstr "abc")), ("name", Value.p (Prim.pstr "bob"))]
      = (⟨[[("id", Value.p (Prim.pint 7)), ("name", Value.p (Prim.pstr "bob"))]], 8⟩, 7) ∧
    ("name", Value.p (Prim.pstr "bob"))
      ∈ SQLiteDB.insertPrep [("id", Value.p (Prim.pstr "abc")), ("name", Value.p (Prim.pstr "bob"))] := by
  have h := c10_sqlite_insert_drops_string_id ⟨[], 7⟩
    [("id", Value.p (Prim.pstr "abc")), ("name", Value.p (Prim.pstr "bob"))] "abc" (by decide)
  refine ⟨?_, ?_⟩
  · rw [h.2.1]
    decide
  · have := h.2.2 ("name", Value.p (Prim.pstr "bob")) (by decide) (by decide)
    simpa using this

/-! ## Lookup lemmas for dict assignment and `$set` application -/

/-- In the replace branch of `dictSet`, the key's binding becomes the new
value. -/
theorem find?_map_set_pos (r : Record) (k : String) (v : Value)
    (h : r.any (fun kv => kv.1 == k) = true) :
    (r.map (fun kv => if kv.1 == k then (k, v) else kv)).find? (fun kv => kv.1 == k)
      = some (k, v) := by
  induction r with
  | nil => cases h
  | cons hd tl ih =>
      by_cases hk : (hd.1 == k) = true
      · simp only [List.map_cons, hk, if_true]
        rw [List.find?_cons_of_pos]
        simp
      · have htl : tl.any (fun kv => kv.1 == k) = true := by
          have := h
          simp only [List.any_cons, hk] at this
          simpa using this
        simp only [List.map_cons, hk, if_false]
        rw [List.find?_cons_of_neg _ (by simpa using hk)]
        exact ih htl

/-- The replace branch of `dictSet` does not disturb other keys. -/
theorem find?_map_set_ne (r : Record) (k k' : String) (v : Value) (h : ¬ k' = k) :
    (r.map (fun kv => if kv.1 == k then (k, v) else kv)).find? (fun kv => kv.1 == k')
      = r.find? (fun kv => kv.1 == k') := by
  induction r with
  | nil => rfl
  | cons hd tl ih =>
      by_cases hk : (hd.1 == k) = true
      · have hd1 : hd.1 = k := by simpa using hk
        have hne1 : (k == k') = false := by
          simp only [beq_eq_false_iff_ne, ne_eq]
          intro hc
          exact h hc.symm
        have hne2 : (hd.1 == k') = false := by rw [hd1]; exact hne1
        rw [List.map_cons, if_pos hk, List.find?_cons, List.find?_cons]
        show (match (k == k') with
              | true => some (k, v)
              | false => (tl.map (fun kv : String × Value => if kv.1 == k then (k, v) else kv)).find?
                  (fun kv : String × Value => kv.1 == k')) = _
        rw [hne1, hne2]
        exact ih
      · rw [List.map_cons, if_neg hk, List.find?_cons, List.find?_cons]
        cases hbe : (hd.1 == k')
        · exact ih
        · rfl

/-- `d[k] = v` binds `k` to `v`. -/
theorem getOpt_dictSet_self (r : Record) (k : String) (v : Value) :
    pyGetOpt (dictSet r k v) k = some v := by
  unfold dictSet pyGetOpt
  by_cases hany : r.any (fun kv => kv.1 == k) = true
  · rw [if_pos hany]
    rw [find?_map_set_pos r k v hany]
    rfl
  · rw [if_neg hany]
    rw [List.find?_append]
    have hf : r.any (fun kv => kv.1 == k) = false := Bool.eq_false_iff.mpr hany
    have hnone : r.find? (fun kv => kv.1 == k) = none :=
      List.find?_eq_none.mpr (List.any_eq_false.mp hf)
    rw [hnone]
    simp

/-- `d[k] = v` leaves every other key's binding alone. -/
theorem getOpt_dictSet_ne (r : Record) (k k' : String) (v : Value) (h : ¬ k' = k) :
    pyGetOpt (dictSet r k v) k' = pyGetOpt r k' := by
  unfold dictSet pyGetOpt
  by_cases hany : r.any (fun kv => kv.1 == k) = true
  · rw [if_pos hany]
    rw [find?_map_set_ne r k k' v h]
  · rw [if_neg hany]
    rw [List.find?_append]
    have hne1 : (k == k') = false := by
      simp only [beq_eq_false_iff_ne, ne_eq]
      intro hc
      exact h hc.symm
    have hlast : ([((k, v))] : Record).find? (fun kv => kv.1 == k') = none := by
      rw [List.find?_cons]
      show (match (k == k') with
            | true => some (k, v)
            | false => ([] : Record).find? (fun kv : String × Value => kv.1 == k')) = none
      rw [hne1]
      rfl
    rw [hlast]
    simp

/-- Applying a `$set` patch leaves keys outside the patch alone. -/
theorem applySet_getOpt_of_notmem (data : Record) (row : Record) (k : String)
    (h : ∀ kv ∈ data, ¬ kv.1 = k) :
    pyGetOpt (applySet data row) k = pyGetOpt row k := by
  induction data generalizing row with
  | nil => rfl
  | cons hd tl ih =>
      show pyGetOpt (applySet tl (dictSet row hd.1 hd.2)) k = pyGetOpt row k
      rw [ih (dictSet row hd.1 hd.2) (fun kv hkv => h kv (List.mem_cons_of_mem _ hkv))]
      exact getOpt_dictSet_ne row hd.1 k hd.2
        (fun hc => h hd (List.mem_cons_self _ _) hc.symm)

/-- Applying a `$set` patch with distinct keys binds every patch entry. -/
theorem applySet_getOpt_mem (data : Record) (row : Record)
    (hnd : (data.map Prod.fst).Nodup) :
    ∀ kv ∈ data, pyGetOpt (applySet data row) kv.1 = some kv.2 := by
  induction data generalizing row with
  | nil => intro kv h; cases h
  | cons hd tl ih =>
      intro kv hkv
      have hnd2 : (hd.1 :: tl.map Prod.fst).Nodup := by simpa using hnd
      rcases List.mem_cons.mp hkv with heq | htl
      · subst heq
        show pyGetOpt (applySet tl (dictSet row kv.1 kv.2)) kv.1 = some kv.2
        have hskip : pyGetOpt (applySet tl (dictSet row kv.1 kv.2)) kv.1
            = pyGetOpt (dictSet row kv.1 kv.2) kv.1 :=
          applySet_getOpt_of_notmem tl _ kv.1
            (fun kv' hkv' hc =>
              (List.nodup_cons.mp hnd2).1 (hc ▸ List.mem_map_of_mem Prod.fst hkv'))
        rw [hskip]
        exact getOpt_dictSet_self row kv.1 kv.2
      · show pyGetOpt (applySet tl (dictSet row hd.1 hd.2)) kv.1 = some kv.2
        exact ih (dictSet row hd.1 hd.2) (List.nodup_cons.mp hnd2).2 kv htl

/-- C5 counterexample: the motor-based document-store adapter's
`update`/`update_async` (an `update_many` with the driver's default
`upsert=False`) against an empty collection with a non-matching filter leaves
the collection empty and reports zero modified records — no record containing
the patch is inserted. -/
theorem c5_motor_update_does_not_upsert :
    MotorMongoDB.update [] [("name", Value.p (Prim.pstr "x"))] [("age", Value.p (Prim.pint 1))]
      = ([], 0) ∧
    (MotorMongoDB.update [] [("name", Value.p (Prim.pstr "x"))]
        [("age", Value.p (Prim.pint 1))]).1.length = 0 :=
  ⟨rfl, rfl⟩

/-- C5 (amended): the legacy synchronous document-store adapter
(src/odbms/mongodb.py) does upsert by default: when no document matches the
filter, `update` and `update_many` insert exactly one new document — the
filter's equality fields overlaid with the patch, under a fresh identifier —
and that document contains every patch entry; the motor-based adapter's
`update`/`update_async` (src/odbms/orms/mongodb.py) does not upsert. -/
theorem c5_legacy_update_upserts (docs : List Record) (filter data : Record) (freshId : String)
    (hnone : ∀ d ∈ docs, mongoMatches filter d = false)
    (hnd : (data.map Prod.fst).Nodup) :
    (MongoDB.update docs filter data freshId).1 = docs ++ [upsertDoc filter data freshId] ∧
    (MongoDB.updateMany docs filter data freshId).1 = docs ++ [upsertDoc filter data freshId] ∧
    ∀ kv ∈ data, pyGetOpt (upsertDoc filter data freshId) kv.1 = some kv.2 := by
  have hidx : docs.findIdx? (mongoMatches filter) = none := by
    rw [List.findIdx?_eq_none_iff]
    exact hnone
  have hfil : docs.filter (mongoMatches filter) = [] :=
    List.filter_eq_nil_iff.mpr (fun d hd => by simp [hnone d hd])
  refine ⟨?_, ?_, ?_⟩
  · simp [MongoDB.update, hidx]
  · simp [MongoDB.updateMany, hfil]
  · intro kv hkv
    unfold upsertDoc
    set base := filter.filter (fun kv => !isOpDict kv.2) with hbase
    have hmem := applySet_getOpt_mem data base hnd kv hkv
    by_cases hid : (applySet data base).any (fun kv => kv.1 == "_id") = true
    · simp only [hid, if_true]
      exact hmem
    · simp only [hid, Bool.false_eq_true, if_false]
      have hkvne : ¬ ("_id" == kv.1) = true := by
        intro hbe
        have hk : kv.1 = "_id" := by
          have := (beq_iff_eq).mp hbe
          exact this.symm
        have hfind : (applySet data base).find? (fun e => e.1 == "_id") ≠ none := by
          intro hcontra
          have := hmem
          unfold pyGetOpt at this
          rw [hk] at this
          rw [hcontra] at this
          cases this
        have hany : (applySet data base).any (fun e => e.1 == "_id") = true := by
          cases hfe : (applySet data base).find? (fun e => e.1 == "_id") with
          | none => exact absurd hfe hfind
          | some a =>
              have hmem' := List.mem_of_find?_eq_some hfe
              have hprop := List.find?_some hfe
              exact List.any_eq_true.mpr ⟨a, hmem', hprop⟩
        exact hid hany
      unfold pyGetOpt
      rw [List.find?_cons]
      show Option.map (fun e : String × Value => e.2)
            (match (("_id", Value.p (Prim.objid freshId)).1 == kv.1) with
             | true => some ("_id", Value.p (Prim.objid freshId))
             | false => (applySet data base).find? (fun e : String × Value => e.1 == kv.1))
          = some kv.2
      have hbe : (("_id", Value.p (Prim.objid freshId)).1 == kv.1) = false :=
        Bool.eq_false_iff.mpr hkvne
      rw [hbe]
      exact hmem

/-- C5 witness: updating an empty collection through the legacy adapter with
filter `{name: "x"}` and patch `{age: 1}` inserts one document holding the
fresh id, the filter field and the patch field. -/
theorem c5_legacy_update_witness :
    (MongoDB.update [] [("name", Value.p (Prim.pstr "x"))] [("age", Value.p (Prim.pint 1))]
        "65aa00112233445566778899").1
      = [[("_id", Value.p (Prim.objid "65aa00112233445566778899")),
          ("name", Value.p (Prim.pstr "x")), ("age", Value.p (Prim.pint 1))]] ∧
    pyGetOpt (upsertDoc [("name", Value.p (Prim.pstr "x"))] [("age", Value.p (Prim.pint 1))]
        "65aa00112233445566778899") "age" = some (Value.p (Prim.pint 1)) := by
  have h := c5_legacy_update_upserts [] [("name", Value.p (Prim.pstr "x"))]
    [("age", Value.p (Prim.pint 1))] "65aa00112233445566778899"
    (fun d hd => absurd hd (List.not_mem_nil d)) (by decide)
  refine ⟨?_, ?_⟩
  · rw [h.1]
    decide
  · exact h.2.2 ("age", Value.p (Prim.pint 1)) (by decide)

/-- C3 counterexample: with a pool of one connection, acquiring it and then
releasing it dead while the replacement creation also fails drops the slot —
`get_connection`'s exit path puts nothing back when `_create_connection`
returns `None` — leaving `available + in_use = 0 ≠ 1`, so the claimed
invariant fails on an acquire/release sequence that never holds more than
the configured size. -/
theorem c3_replacement_failure_breaks_invariant :
    ¬ PoolInv (poolRun (initPool 1) [PoolOp.acquire, PoolOp.release false false]) := by
  unfold PoolInv
  decide
